import Mathlib

/-!
Verification of the fleet-tracking protocol engine
(src/tcp-server/tcp_server.py and src/backend/app.py).

Byte buffers are modelled as lists of naturals (each intended < 256).
Python slicing b[i:i+n] clamps at the end of the buffer and never raises;
single-byte indexing b[i] raises IndexError when out of range.  Both are
modelled explicitly below: slicing by drop/take, indexing by an Option read.
-/

namespace Fleet

abbrev Bytes := List Nat

/-- Python slice b[i:i+n]: clamped, never fails. -/
def slice (b : Bytes) (i n : Nat) : Bytes := (b.drop i).take n

/-- Python single-byte index b[i]: fails (IndexError) when out of range. -/
def byteAt (b : Bytes) (i : Nat) : Option Nat := b.get? i

/-- Big-endian interpretation of a byte string (int.from_bytes(_, 'big')). -/
def bytesToNat (l : Bytes) : Nat := l.foldl (fun acc x => acc * 256 + x) 0

/-- Signed big-endian interpretation over the slice's own length
(int.from_bytes(_, 'big', signed=True)); the empty string gives 0. -/
def intFromBytesSigned (l : Bytes) : Int :=
  let u := bytesToNat l
  if u < 2 ^ (8 * l.length - 1) then (u : Int) else (u : Int) - 2 ^ (8 * l.length)

/-- n.to_bytes(w, 'big'). -/
def natToBytesBE (w n : Nat) : Bytes :=
  (List.range w).map (fun i => n / 256 ^ (w - 1 - i) % 256)

/-- Python dict assignment d[k] = v on an insertion-ordered mapping. -/
def dictInsert (m : List (Nat × Nat)) (k v : Nat) : List (Nat × Nat) :=
  match m with
  | [] => [(k, v)]
  | (k', v') :: rest => if k' = k then (k, v) :: rest else (k', v') :: dictInsert rest k v

/-!
Frame reassembly (PHASE 2 loop of handle_client, identical in both servers):
while at least 12 bytes are buffered, a nonzero 4-byte preamble advances the
buffer by one byte; otherwise the 4-byte payload length L is read and a
complete frame needs 8 + L + 4 bytes; incomplete data suspends the loop.
Each iteration of the source loop consumes at least one byte of the buffer,
so running the step function buf.length times reaches the loop's fixpoint;
extractLoop_congr below shows the fuel argument is irrelevant beyond that.
-/

def extractLoop (fuel : Nat) (buf : Bytes) : List Bytes × Bytes :=
  match fuel with
  | 0 => ([], buf)
  | fuel + 1 =>
    if buf.length < 12 then ([], buf)
    else if bytesToNat (slice buf 0 4) ≠ 0 then extractLoop fuel (buf.drop 1)
    else
      if buf.length < 8 + bytesToNat (slice buf 4 4) + 4 then ([], buf)
      else
        let total := 8 + bytesToNat (slice buf 4 4) + 4
        let r := extractLoop fuel (buf.drop total)
        (buf.take total :: r.1, r.2)

/-- One feed call of the reassembler: append the chunk to the carried buffer
and run the extraction loop to quiescence. -/
def extractFrames (buf : Bytes) : List Bytes × Bytes := extractLoop buf.length buf

/-- Feeding a sequence of chunks: each recv appends to the carry-over buffer
and extracts whatever complete frames are available. -/
def feedAll (chunks : List Bytes) (carry : Bytes) : List Bytes × Bytes :=
  match chunks with
  | [] => ([], carry)
  | c :: rest =>
    let r := extractFrames (carry ++ c)
    let r2 := feedAll rest r.2
    (r.1 ++ r2.1, r2.2)

/-!
Backend Codec 8 decoder (app.py, parse_codec8_packet).

The Python function returns None at the four header checks, raises
IndexError on a single-byte read past the end of the buffer (slices are
clamped and silently short), and otherwise returns the record list.
PResult.exn models an uncaught exception; within the record parser the only
abnormal exit is such an exception, modelled by Option none.
-/

inductive PResult (α : Type) where
  | ok (val : α)
  | exn
deriving DecidableEq, Repr

/-- Decoded AVL record as built by parse_codec8_packet.  Longitude and
latitude are kept as the raw signed integers; the Python floats are these
raw values divided by 10^7 (views below).  The timestamp is kept as the raw
millisecond count; datetime.utcfromtimestamp(ms / 1000.0) denotes the UTC
instant that many milliseconds after the Unix epoch. -/
structure AvlRecord where
  timestampMs : Nat
  priority : Nat
  lonRaw : Int
  latRaw : Int
  altitude : Int
  angle : Nat
  satellites : Nat
  speed : Nat
  eventId : Nat
  ioElements : List (Nat × Nat)
deriving DecidableEq, Repr

def AvlRecord.longitude (r : AvlRecord) : ℚ := (r.lonRaw : ℚ) / 10000000
def AvlRecord.latitude (r : AvlRecord) : ℚ := (r.latRaw : ℚ) / 10000000

/-- One group of I/O elements of a fixed value width: a 1-byte identifier
then the value.  For width 1 the value is read by single-byte indexing
(raises when out of range); for widths 2, 4, 8 by a clamped slice. -/
def parseIoGroup (buf : Bytes) (width : Nat) :
    Nat → Nat → List (Nat × Nat) → Option (List (Nat × Nat) × Nat)
  | 0, off, io => some (io, off)
  | n + 1, off, io =>
    match byteAt buf off,
          (if width = 1 then byteAt buf (off + 1)
           else some (bytesToNat (slice buf (off + 1) width))) with
    | some ioId, some ioVal =>
      parseIoGroup buf width n (off + 1 + width) (dictInsert io ioId ioVal)
    | _, _ => none

/-- One AVL record starting at off, exactly as parse_codec8_packet reads it:
8-byte timestamp, 1-byte priority, 4+4-byte signed longitude and latitude,
2-byte signed altitude, 2-byte angle, 1-byte satellites, 2-byte speed,
1-byte event id, 1-byte total I/O count, then the four element groups.
Multi-byte reads are clamped slices; single-byte reads can raise (none). -/
def parseOneRecord (buf : Bytes) (off : Nat) : Option (AvlRecord × Nat) :=
  match byteAt buf (off + 8), byteAt buf (off + 21), byteAt buf (off + 24),
        byteAt buf (off + 25), byteAt buf (off + 26) with
  | some priority, some satellites, some eventId, some _nTotal, some n1 =>
    match parseIoGroup buf 1 n1 (off + 27) [] with
    | none => none
    | some (io1, o1) =>
      match byteAt buf o1 with
      | none => none
      | some n2 =>
        match parseIoGroup buf 2 n2 (o1 + 1) io1 with
        | none => none
        | some (io2, o2) =>
          match byteAt buf o2 with
          | none => none
          | some n4 =>
            match parseIoGroup buf 4 n4 (o2 + 1) io2 with
            | none => none
            | some (io4, o3) =>
              match byteAt buf o3 with
              | none => none
              | some n8 =>
                match parseIoGroup buf 8 n8 (o3 + 1) io4 with
                | none => none
                | some (io8, o4) =>
                  some ({ timestampMs := bytesToNat (slice buf off 8)
                          priority
                          lonRaw := intFromBytesSigned (slice buf (off + 9) 4)
                          latRaw := intFromBytesSigned (slice buf (off + 13) 4)
                          altitude := intFromBytesSigned (slice buf (off + 17) 2)
                          angle := bytesToNat (slice buf (off + 19) 2)
                          satellites
                          speed := bytesToNat (slice buf (off + 22) 2)
                          eventId
                          ioElements := io8 }, o4)
  | _, _, _, _, _ => none

/-- The record loop: up to numRecords records; the loop breaks (keeping the
records decoded so far) when fewer than 26 bytes remain before the next
record; an exception inside a record aborts the whole parse. -/
def parseRecords (buf : Bytes) : Nat → Nat → Option (List AvlRecord × Nat)
  | 0, off => some ([], off)
  | n + 1, off =>
    if off + 26 > buf.length then some ([], off)
    else
      match parseOneRecord buf off with
      | none => none
      | some (r, off') =>
        match parseRecords buf n off' with
        | none => none
        | some (rs, offEnd) => some (r :: rs, offEnd)

/-- parse_codec8_packet: header checks return None; codec ids other than
0x08 return None; the record loop's exception propagates. -/
def parse_codec8_packet (buf : Bytes) : PResult (Option (List AvlRecord)) :=
  if buf.length < 12 then .ok none
  else if bytesToNat (slice buf 0 4) ≠ 0 then .ok none
  else if buf.length < 8 + bytesToNat (slice buf 4 4) + 4 then .ok none
  else
    match byteAt buf 8 with
    | none => .exn
    | some codecId =>
      if codecId ≠ 8 then .ok none
      else
        match byteAt buf 9 with
        | none => .exn
        | some numRecords =>
          match parseRecords buf numRecords 10 with
          | none => .exn
          | some (recs, _) => .ok (some recs)

/-!
Reference decoding, written from the specification's wording: each record's
fields are read in the fixed order with their fixed widths, and a record
counts as fully decodable only when every field it claims is actually
present in the buffer.  The longest-prefix decoder stops at the first
record that is not fully decodable.
-/

/-- A slice that insists on being fully present. -/
def refSlice (b : Bytes) (i n : Nat) : Option Bytes :=
  if i + n ≤ b.length then some (slice b i n) else none

/-- Reference read of one I/O element group (1-byte id, width-byte value,
every byte required to be present). -/
def refReadIo (buf : Bytes) (width : Nat) :
    Nat → Nat → List (Nat × Nat) → Option (List (Nat × Nat) × Nat)
  | 0, off, io => some (io, off)
  | n + 1, off, io =>
    match byteAt buf off, refSlice buf (off + 1) width with
    | some ioId, some v =>
      refReadIo buf width n (off + 1 + width) (dictInsert io ioId (bytesToNat v))
    | _, _ => none

/-- Reference decoding of one AVL record per the specification's field
list; succeeds only when the record is fully decodable. -/
def refParseRecord (buf : Bytes) (off : Nat) : Option (AvlRecord × Nat) :=
  match refSlice buf off 8, byteAt buf (off + 8), refSlice buf (off + 9) 4,
        refSlice buf (off + 13) 4, refSlice buf (off + 17) 2, refSlice buf (off + 19) 2,
        byteAt buf (off + 21), refSlice buf (off + 22) 2, byteAt buf (off + 24),
        byteAt buf (off + 25), byteAt buf (off + 26) with
  | some ts, some priority, some lon, some lat, some alt, some ang, some satellites,
    some spd, some eventId, some _nTotal, some n1 =>
    match refReadIo buf 1 n1 (off + 27) [] with
    | none => none
    | some (io1, o1) =>
      match byteAt buf o1 with
      | none => none
      | some n2 =>
        match refReadIo buf 2 n2 (o1 + 1) io1 with
        | none => none
        | some (io2, o2) =>
          match byteAt buf o2 with
          | none => none
          | some n4 =>
            match refReadIo buf 4 n4 (o2 + 1) io2 with
            | none => none
            | some (io4, o3) =>
              match byteAt buf o3 with
              | none => none
              | some n8 =>
                match refReadIo buf 8 n8 (o3 + 1) io4 with
                | none => none
                | some (io8, o4) =>
                  some ({ timestampMs := bytesToNat ts
                          priority
                          lonRaw := intFromBytesSigned lon
                          latRaw := intFromBytesSigned lat
                          altitude := intFromBytesSigned alt
                          angle := bytesToNat ang
                          satellites
                          speed := bytesToNat spd
                          eventId
                          ioElements := io8 }, o4)
  | _, _, _, _, _, _, _, _, _, _, _ => none

/-- Reference longest-prefix decoding: up to n records, stopping at the
first record that is not fully decodable; also returns the end offset. -/
def refDecodeAux (buf : Bytes) : Nat → Nat → List AvlRecord × Nat
  | 0, off => ([], off)
  | n + 1, off =>
    match refParseRecord buf off with
    | none => ([], off)
    | some (r, off') =>
      let rest := refDecodeAux buf n off'
      (r :: rest.1, rest.2)

/-!
CRC and the backend per-frame step (app.py handle_client, PHASE 2 body).
-/

/-- calculate_crc16: CRC-16/CCITT, polynomial 0x1021, seed 0, each byte
XORed in shifted high, eight shift steps per byte, final low 16 bits. -/
def calculate_crc16 (data : Bytes) : Nat :=
  let crc := data.foldl
    (fun crc byte =>
      let crc := crc ^^^ (byte <<< 8)
      (List.range 8).foldl
        (fun crc _ =>
          let crc := crc <<< 1
          if crc &&& 0x10000 ≠ 0 then crc ^^^ 0x1021 else crc)
        crc)
    0
  crc &&& 0xFFFF

/-- One telemetry row as the backend INSERT writes it (vehicle_id,
timestamp, latitude, longitude, altitude, angle, satellites, speed,
io_elements).  Latitude and longitude are kept raw; the float columns the
INSERT receives are these divided by 10^7, exactly as decoded. -/
structure StoredRow where
  vehicleId : Nat
  timestampMs : Nat
  latRaw : Int
  lonRaw : Int
  altitude : Int
  angle : Nat
  satellites : Nat
  speed : Nat
  ioElements : List (Nat × Nat)
deriving DecidableEq, Repr

/-- Device directory: IMEI bytes to vehicle id (the vehicles table). -/
def dirLookup (dir : List (Bytes × Nat)) (imei : Bytes) : Option Nat :=
  match dir with
  | [] => none
  | (k, v) :: rest => if k = imei then some v else dirLookup rest imei

/-- Backend store_telemetry(imei, records): resolve the vehicle by IMEI and
insert one row per record; returns none (False) when the IMEI does not
resolve.  The values written are the record's fields, unchanged. -/
def backendStoreTelemetry (dir : List (Bytes × Nat)) (imei : Bytes)
    (recs : List AvlRecord) : Option (List StoredRow) :=
  match dirLookup dir imei with
  | none => none
  | some vid =>
    some (recs.map fun r =>
      { vehicleId := vid
        timestampMs := r.timestampMs
        latRaw := r.latRaw
        lonRaw := r.lonRaw
        altitude := r.altitude
        angle := r.angle
        satellites := r.satellites
        speed := r.speed
        ioElements := r.ioElements })

/-- Backend handle_client, one complete packet: the CRC over packet[8:-4]
is compared with the trailing 4 bytes (the comparison is only logged and
never alters control flow); the packet is parsed; an empty or None record
list or a failed store sends the 4-byte rejection 0x00000000, success sends
the number of parsed records; a parse exception propagates.  dbOk models
whether the database inserts succeed.  Returns (ack bytes, rows stored). -/
def backendFrameStep (dir : List (Bytes × Nat)) (imei : Bytes) (dbOk : Bool)
    (packet : Bytes) : PResult (Bytes × List StoredRow) :=
  let _receivedCrc := bytesToNat (slice packet (packet.length - 4) 4)
  let _calculatedCrc := calculate_crc16 (slice packet 8 (packet.length - 12))
  match parse_codec8_packet packet with
  | .exn => .exn
  | .ok none => .ok ([0, 0, 0, 0], [])
  | .ok (some recs) =>
    if recs.isEmpty then .ok ([0, 0, 0, 0], [])
    else
      match (if dbOk then backendStoreTelemetry dir imei recs else none) with
      | some rows => .ok (natToBytesBE 4 recs.length, rows)
      | none => .ok ([0, 0, 0, 0], [])

/-!
Standalone TCP server (tcp_server.py).

parse_avl_record reads the fixed fields with struct.unpack (which raises
unless its slice has exactly the requested width) and single-byte indexing
(which raises when out of range); every exception is caught and turned into
the failure result (None, 0).  The four I/O element groups are skipped, not
decoded: each count byte is read only if the offset is still inside the
buffer, and the offset then jumps over the group.
-/

/-- struct.unpack of an exact-width big-endian unsigned field; fails unless
the slice is fully present. -/
def unpackU (data : Bytes) (off w : Nat) : Option Nat :=
  if off + w ≤ data.length then some (bytesToNat (slice data off w)) else none

/-- struct.unpack of an exact-width big-endian two's-complement field. -/
def unpackS (data : Bytes) (off w : Nat) : Option Int :=
  if off + w ≤ data.length then some (intFromBytesSigned (slice data off w)) else none

/-- Decoded telemetry dict as built by parse_avl_record (timestamp,
latitude, longitude, altitude, speed, angle, satellites, priority,
event_io_id).  Latitude and longitude are kept raw; the Python floats are
these divided by 10^7.  The timestamp is kept as the raw millisecond count
(datetime.fromtimestamp(ms / 1000.0) denotes that instant in local time);
the conversion is modelled as total — for astronomically large counts,
beyond datetime's year-9999 range, the Python call would itself raise,
which is a library limit, not a sanity filter. -/
structure TelemetryData where
  timestampMs : Nat
  latRaw : Int
  lonRaw : Int
  altitude : Int
  speed : Nat
  angle : Nat
  satellites : Nat
  priority : Nat
  eventIoId : Nat
deriving DecidableEq, Repr

def TelemetryData.latitude (td : TelemetryData) : ℚ := (td.latRaw : ℚ) / 10000000
def TelemetryData.longitude (td : TelemetryData) : ℚ := (td.lonRaw : ℚ) / 10000000

/-- Skip one I/O group: read the count byte only when the offset is inside
the buffer, then jump over count elements of width 1 + w. -/
def skipIoGroup (data : Bytes) (off w : Nat) : Nat :=
  if off < data.length then off + 1 + data.getD off 0 * (1 + w) else off

/-- parse_avl_record(data, offset): returns the record and the number of
bytes consumed, or none when any read raises (the except branch). -/
def parse_avl_record (data : Bytes) (off : Nat) : Option (TelemetryData × Nat) :=
  match unpackU data off 8, byteAt data (off + 8), unpackS data (off + 9) 4,
        unpackS data (off + 13) 4, unpackS data (off + 17) 2, unpackU data (off + 19) 2,
        byteAt data (off + 21), unpackU data (off + 22) 2, byteAt data (off + 24),
        byteAt data (off + 25) with
  | some ts, some priority, some lonRaw, some latRaw, some altitude, some angle,
    some satellites, some speed, some eventIoId, some _totalIo =>
    let o1 := skipIoGroup data (off + 26) 1
    let o2 := skipIoGroup data o1 2
    let o3 := skipIoGroup data o2 4
    let o4 := skipIoGroup data o3 8
    some ({ timestampMs := ts, latRaw, lonRaw, altitude, speed, angle,
            satellites, priority, eventIoId }, o4 - off)
  | _, _, _, _, _, _, _, _, _, _ => none

/-- The per-frame record loop of tcp_server handle_client: parse up to
numRecords records, advancing by the consumed byte count, breaking at the
first failed parse and keeping the earlier records. -/
def tcpRecordLoop (packet : Bytes) : Nat → Nat → List TelemetryData
  | 0, _ => []
  | i + 1, off =>
    match parse_avl_record packet off with
    | none => []
    | some (td, consumed) => td :: tcpRecordLoop packet i (off + consumed)

/-- Observable actions of one tcp_server connection. -/
inductive TcpOut where
  | sendImeiAck
  | sendImeiReject
  | storeCall (vid : Option Nat) (td : TelemetryData)
  | sendAck (bytes : Bytes)
deriving DecidableEq, Repr

/-- tcp_server handle_client, one complete packet: codec 0x08 or 142 (0x8E)
runs the record loop, calling store_telemetry on every parsed record, then
sends the declared record count as a 4-byte big-endian acknowledgement; any
other codec sends the same acknowledgement with no records processed. -/
def processFrame (vid : Option Nat) (packet : Bytes) : List TcpOut :=
  let codecId := packet.getD 8 0
  let numRecords := packet.getD 9 0
  if codecId = 8 ∨ codecId = 142 then
    (tcpRecordLoop packet numRecords 10).map (fun td => TcpOut.storeCall vid td)
      ++ [TcpOut.sendAck (natToBytesBE 4 numRecords)]
  else
    [TcpOut.sendAck (natToBytesBE 4 numRecords)]

/-- The tcp_server PHASE 2 loop, with the outputs of each processed frame;
same fuel discipline as extractLoop. -/
def phase2Loop (vid : Option Nat) : Nat → Bytes → List TcpOut × Bytes
  | 0, buffer => ([], buffer)
  | fuel + 1, buffer =>
    if buffer.length < 12 then ([], buffer)
    else if bytesToNat (slice buffer 0 4) ≠ 0 then phase2Loop vid fuel (buffer.drop 1)
    else
      if buffer.length < 8 + bytesToNat (slice buffer 4 4) + 4 then ([], buffer)
      else
        let total := 8 + bytesToNat (slice buffer 4 4) + 4
        let outs := processFrame vid (buffer.take total)
        let r := phase2Loop vid fuel (buffer.drop total)
        (outs ++ r.1, r.2)

/-- Per-connection session state of tcp_server handle_client. -/
structure TcpSession where
  imei : Option Bytes
  vehicleId : Option Nat
  buffer : Bytes
  closed : Bool
deriving DecidableEq, Repr

/-- One recv iteration of tcp_server handle_client: append the chunk, run
PHASE 1 when no IMEI is known yet (a complete identifier is validated
against the directory: success acknowledges with 0x01 and, per the source's
continue statement, defers frame processing to the next recv; failure sends
0x00 and closes), and fall through to the PHASE 2 packet loop otherwise —
including, as in the source, when the identifier is still incomplete. -/
def recvChunk (dir : List (Bytes × Nat)) (s : TcpSession) (chunk : Bytes) :
    TcpSession × List TcpOut :=
  let buffer := s.buffer ++ chunk
  match s.imei with
  | none =>
    if 2 ≤ buffer.length ∧ 2 + bytesToNat (slice buffer 0 2) ≤ buffer.length then
      let imeiLen := bytesToNat (slice buffer 0 2)
      let imeiBytes := slice buffer 2 imeiLen
      match dirLookup dir imeiBytes with
      | some vid =>
        ({ imei := some imeiBytes, vehicleId := some vid,
           buffer := buffer.drop (2 + imeiLen), closed := false },
         [TcpOut.sendImeiAck])
      | none =>
        ({ imei := some imeiBytes, vehicleId := none, buffer := buffer, closed := true },
         [TcpOut.sendImeiReject])
    else
      let r := phase2Loop s.vehicleId buffer.length buffer
      ({ s with buffer := r.2 }, r.1)
  | some _ =>
    let r := phase2Loop s.vehicleId buffer.length buffer
    ({ s with buffer := r.2 }, r.1)

/-!
Adaptive filter (tcp_server.py, should_save_telemetry and store_telemetry).

The source computes distances with math.sin, math.cos, math.asin and
math.sqrt on floats.  Those transcendental primitives are abstracted as a
structure of rational-valued operations; haversine_distance below is the
source formula over any such structure, and all filter theorems hold for
every choice of the operations.  Wall-clock datetime.now() values are
modelled as rational second counts passed in explicitly.
-/

/-- Python abs() on rationals, written as a conditional so that concrete
instances evaluate. -/
def absQ (q : ℚ) : ℚ := if q < 0 then -q else q

/-- Minimum of two rationals, written as a conditional so that concrete
instances evaluate. -/
def minQ (a b : ℚ) : ℚ := if a ≤ b then a else b

/-- Abstracted math library: sin, cos, asin, sqrt and pi. -/
structure TrigOps where
  sin : ℚ → ℚ
  cos : ℚ → ℚ
  asin : ℚ → ℚ
  sqrt : ℚ → ℚ
  pi : ℚ

/-- math.radians. -/
def radiansQ (t : TrigOps) (deg : ℚ) : ℚ := deg * t.pi / 180

/-- haversine_distance: the source's great-circle formula, Earth radius
6,371,000 m, over the abstracted math operations. -/
def haversine_distance (t : TrigOps) (lat1 lon1 lat2 lon2 : ℚ) : ℚ :=
  let lat1 := radiansQ t lat1
  let lon1 := radiansQ t lon1
  let lat2 := radiansQ t lat2
  let lon2 := radiansQ t lon2
  let dlat := lat2 - lat1
  let dlon := lon2 - lon1
  let a := t.sin (dlat / 2) ^ 2 + t.cos lat1 * t.cos lat2 * t.sin (dlon / 2) ^ 2
  let c := 2 * t.asin (t.sqrt a)
  c * 6371000

/-- A trivial instantiation of the math operations, used to evaluate the
filter on concrete inputs. -/
def trigZero : TrigOps := ⟨fun _ => 0, fun _ => 0, fun _ => 0, fun _ => 0, 0⟩

/-- A math-operation instantiation whose asin is the constant
100 / 12742000, making the haversine formula yield exactly 100 m. -/
def trigDist100 : TrigOps :=
  ⟨fun _ => 0, fun _ => 0, fun _ => 100 / 12742000, fun _ => 0, 0⟩

/-- Filtering thresholds (the environment-variable defaults). -/
def MIN_DISTANCE_METERS : ℚ := 50
def MIN_SPEED_KMH : ℚ := 5
def MIN_TIME_INTERVAL_STATIONARY : ℚ := 300
def MIN_TIME_INTERVAL_MOVING : ℚ := 10
def MAX_TIME_WITHOUT_SAVE : ℚ := 3600

/-- One entry of the last_saved_telemetry cache: the saved record and the
wall-clock time (datetime.now()) at which it was saved. -/
structure CacheEntry where
  data : TelemetryData
  timestamp : ℚ
deriving DecidableEq

/-- The last_saved_telemetry dict, keyed by vehicle id. -/
abbrev SaveCache := List (Nat × CacheEntry)

def cacheLookup : SaveCache → Nat → Option CacheEntry
  | [], _ => none
  | (k, e) :: rest, vid => if k = vid then some e else cacheLookup rest vid

def cacheInsert : SaveCache → Nat → CacheEntry → SaveCache
  | [], vid, e => [(vid, e)]
  | (k, e') :: rest, vid, e =>
    if k = vid then (vid, e) :: rest else (k, e') :: cacheInsert rest vid e

/-- Which rule produced the decision (the reason string of the source). -/
inductive SaveReason where
  | firstRecord | maxTime | distance | movingInterval | stationaryCheckin
  | speedChange | directionChange | gpsQuality | filtered
deriving DecidableEq, Repr

/-- should_save_telemetry(vehicle_id, telemetry_data) at wall-clock time
now: the source's rule cascade, in source order. -/
def should_save_telemetry (t : TrigOps) (cache : SaveCache) (now : ℚ)
    (vid : Nat) (td : TelemetryData) : Bool × SaveReason :=
  match cacheLookup cache vid with
  | none => (true, .firstRecord)
  | some e =>
    let lastData := e.data
    let timeSinceLastSave := now - e.timestamp
    if timeSinceLastSave ≥ MAX_TIME_WITHOUT_SAVE then (true, .maxTime)
    else
      let distanceMeters := haversine_distance t
        lastData.latitude lastData.longitude td.latitude td.longitude
      let currentSpeed : ℚ := td.speed
      let isMoving := currentSpeed ≥ MIN_SPEED_KMH
      if distanceMeters ≥ MIN_DISTANCE_METERS then (true, .distance)
      else if isMoving ∧ timeSinceLastSave ≥ MIN_TIME_INTERVAL_MOVING then
        (true, .movingInterval)
      else if ¬isMoving ∧ timeSinceLastSave ≥ MIN_TIME_INTERVAL_STATIONARY then
        (true, .stationaryCheckin)
      else if absQ (currentSpeed - (lastData.speed : ℚ)) ≥ MIN_SPEED_KMH then
        (true, .speedChange)
      else if isMoving ∧
          (let angleDiff := absQ ((td.angle : ℚ) - (lastData.angle : ℚ))
           (if angleDiff > 180 then 360 - angleDiff else angleDiff) ≥ 30) then
        (true, .directionChange)
      else if absQ ((td.satellites : ℚ) - (lastData.satellites : ℚ)) ≥ 3 then
        (true, .gpsQuality)
      else (false, .filtered)

/-- store_telemetry(vehicle_id, telemetry_data): consult the filter; a
rejected record only updates the vehicle status row, never the cache; an
accepted record is inserted (insertOk models whether the INSERT and commit
succeed — the except branch returns False without touching the cache), and
only after a successful commit is the cache entry replaced, with the
wall-clock time now as its timestamp. -/
def store_telemetry (t : TrigOps) (insertOk : Bool) (cache : SaveCache)
    (now : ℚ) (vid : Nat) (td : TelemetryData) : (Bool × SaveReason) × SaveCache :=
  let r := should_save_telemetry t cache now vid td
  if ¬r.1 then ((false, r.2), cache)
  else if insertOk then ((true, r.2), cacheInsert cache vid ⟨td, now⟩)
  else ((false, r.2), cache)

/-!
Specification-side definitions for the adaptive filter, written from the
claims' wording, to be compared with the source embedding above.
-/

/-- Shortest angular distance between two headings, wrapping at 360
degrees (specification wording for the direction rule). -/
def specHeadingDelta (a b : ℚ) : ℚ := minQ (absQ (a - b)) (360 - absQ (a - b))

/-- The claim's rule list in its stated precedence order, first true rule
winning; dist is the haversine displacement, elapsed the wall-clock time
since the last acceptance.  hasPrior is false exactly when no Filter State
exists for the vehicle. -/
def specAccept (hasPrior : Bool) (dist elapsed speed lastSpeed heading lastHeading
    sats lastSats : ℚ) : Bool :=
  if ¬hasPrior then true
  else if elapsed ≥ 3600 then true
  else if dist ≥ 50 then true
  else if speed ≥ 5 ∧ elapsed ≥ 10 then true
  else if speed < 5 ∧ elapsed ≥ 300 then true
  else if absQ (speed - lastSpeed) ≥ 5 then true
  else if specHeadingDelta heading lastHeading ≥ 30 ∧ speed ≥ 5 then true
  else if absQ (sats - lastSats) ≥ 3 then true
  else false

/-- The non-time rules alone (first point, displacement, speed delta,
direction change while moving, satellite delta): what the cascade can still
accept when every elapsed-time rule is out of reach. -/
def specAcceptNoTime (hasPrior : Bool) (dist speed lastSpeed heading lastHeading
    sats lastSats : ℚ) : Bool :=
  if ¬hasPrior then true
  else if dist ≥ 50 then true
  else if absQ (speed - lastSpeed) ≥ 5 then true
  else if specHeadingDelta heading lastHeading ≥ 30 ∧ speed ≥ 5 then true
  else if absQ (sats - lastSats) ≥ 3 then true
  else false

/-!
Concrete wire fixtures.  A minimal complete record is 30 bytes: 8-byte
timestamp, 1-byte priority, 15-byte GPS block, event id, total I/O count
and four zero group counts.
-/

/-- A 30-byte record with the given timestamp and all other fields zero. -/
def zeroRecord (ts : Nat) : Bytes := natToBytesBE 8 ts ++ List.replicate 22 0

/-- A complete frame with one all-zero record (timestamp 1 ms) and a zero
checksum field. -/
def wfFrame : Bytes :=
  [0, 0, 0, 0] ++ natToBytesBE 4 32 ++ [8, 1] ++ zeroRecord 1 ++ [0, 0, 0, 0]

/-- The record wfFrame decodes to. -/
def wfRecord : AvlRecord :=
  { timestampMs := 1, priority := 0, lonRaw := 0, latRaw := 0, altitude := 0,
    angle := 0, satellites := 0, speed := 0, eventId := 0, ioElements := [] }

/-- C1 counterexample frame: declares one record but carries only 26 bytes
after the header (a truncated record), trailing checksum included in the 36
bytes.  The 26-byte guard passes, and reading the first group count at
offset 36 raises IndexError. -/
def cx1Frame : Bytes :=
  [0, 0, 0, 0] ++ natToBytesBE 4 24 ++ [8, 1] ++ List.replicate 26 0

/-- C6 counterexample, shared prefix: a frame whose single declared record
is cut off immediately before its fourth group count, so the parser reads
the first checksum byte as the 8-byte-group count. -/
def cx6P : Bytes :=
  [0, 0, 0, 0] ++ natToBytesBE 4 31 ++ [8, 1] ++ natToBytesBE 8 1 ++ List.replicate 21 0

/-- cx6P with checksum bytes 00 00 00 00. -/
def cx6FrameA : Bytes := cx6P ++ [0, 0, 0, 0]

/-- cx6P with checksum bytes 01 07 00 00. -/
def cx6FrameB : Bytes := cx6P ++ [1, 7, 0, 0]

/-- C6 witness prefix: wfFrame without its checksum field. -/
def c6WitP : Bytes := [0, 0, 0, 0] ++ natToBytesBE 4 32 ++ [8, 1] ++ zeroRecord 1

/-- C7 counterexample frame: codec 0x09, one declared record. -/
def cx7Frame : Bytes := [0, 0, 0, 0] ++ natToBytesBE 4 2 ++ [9, 1] ++ [0, 0, 0, 0]

/-- C5 counterexample frame: one record whose timestamp is
1990-01-01T00:00:00Z (631,152,000,000 ms after the epoch). -/
def cx5Frame : Bytes :=
  [0, 0, 0, 0] ++ natToBytesBE 4 32 ++ [8, 1] ++ zeroRecord 631152000000 ++ [0, 0, 0, 0]

/-- The telemetry dict cx5Frame decodes to. -/
def cx5Td : TelemetryData :=
  { timestampMs := 631152000000, latRaw := 0, lonRaw := 0, altitude := 0,
    speed := 0, angle := 0, satellites := 0, priority := 0, eventIoId := 0 }

/-- C8 failing input: one byte 0x01 followed by a complete frame.  The two
leading bytes announce a 256-byte identifier, so the handshake stays
incomplete, control falls through to the packet loop, resynchronization
skips the 0x01, and the frame is processed unauthenticated. -/
def cx8Frame : Bytes :=
  [0, 0, 0, 0] ++ natToBytesBE 4 32 ++ [8, 1] ++ zeroRecord 1600000000000 ++ [0, 0, 0, 0]

def cx8Chunk : Bytes := 1 :: cx8Frame

/-- The telemetry dict cx8Frame decodes to. -/
def cx8Td : TelemetryData :=
  { timestampMs := 1600000000000, latRaw := 0, lonRaw := 0, altitude := 0,
    speed := 0, angle := 0, satellites := 0, priority := 0, eventIoId := 0 }

/-- A directory with one known device (IMEI bytes "12", vehicle 5). -/
def dirFix : List (Bytes × Nat) := [([0x31, 0x32], 5)]

/-- A handshake presenting the unknown one-byte identifier 0x39. -/
def cx8RejChunk : Bytes := [0, 1, 0x39]

/-- C9 frame family: one record carrying a single 2-byte I/O element with
identifier i and raw value 100, all other fields zero. -/
def c9Frame (i : Nat) : Bytes :=
  [0, 0, 0, 0] ++ natToBytesBE 4 35 ++ [8, 1] ++
    (natToBytesBE 8 1 ++ [0] ++ List.replicate 15 0 ++ [0] ++ [1] ++
      [0] ++ [1] ++ [i, 0, 100] ++ [0] ++ [0]) ++ [0, 0, 0, 0]

/-- The record c9Frame i decodes to. -/
def c9Rec (i : Nat) : AvlRecord :=
  { timestampMs := 1, priority := 0, lonRaw := 0, latRaw := 0, altitude := 0,
    angle := 0, satellites := 0, speed := 0, eventId := 0, ioElements := [(i, 100)] }

/-- The row the backend stores for c9Frame i under dirFix: every field is
the raw decoded value; the I/O mapping keeps identifier i with the raw
value 100, and nothing derived exists anywhere in the row. -/
def c9Row (i : Nat) : StoredRow :=
  { vehicleId := 5, timestampMs := 1, latRaw := 0, lonRaw := 0, altitude := 0,
    angle := 0, satellites := 0, speed := 0, ioElements := [(i, 100)] }

/-!
Theorems.  First, generic facts about slices and the extraction loop.
-/

theorem slice_append (b c : Bytes) (i n : Nat) (h : i + n ≤ b.length) :
    slice (b ++ c) i n = slice b i n := by
  unfold slice
  rw [List.drop_append_of_le_length (by omega)]
  rw [List.take_append_of_le_length (by simp; omega)]

theorem extractLoop_low (fuel : Nat) (b : Bytes) (h : b.length < 12) :
    extractLoop fuel b = ([], b) := by
  cases fuel with
  | zero => rfl
  | succ m => simp only [extractLoop, if_pos h]

theorem extractLoop_congr (f₁ : Nat) : ∀ (f₂ : Nat) (b : Bytes),
    b.length ≤ f₁ → b.length ≤ f₂ → extractLoop f₁ b = extractLoop f₂ b := by
  induction f₁ with
  | zero =>
    intro f₂ b h1 _
    have hb : b = [] := List.eq_nil_of_length_eq_zero (by omega)
    subst hb
    rw [extractLoop_low f₂ [] (by simp), extractLoop_low 0 [] (by simp)]
  | succ m ih =>
    intro f₂ b h1 h2
    cases f₂ with
    | zero =>
      have hb : b = [] := List.eq_nil_of_length_eq_zero (by omega)
      subst hb
      rw [extractLoop_low (m + 1) [] (by simp), extractLoop_low 0 [] (by simp)]
    | succ k =>
      by_cases h12 : b.length < 12
      · rw [extractLoop_low _ _ h12, extractLoop_low _ _ h12]
      · by_cases hpre : bytesToNat (slice b 0 4) = 0
        · by_cases hinc : b.length < 8 + bytesToNat (slice b 4 4) + 4
          · simp only [extractLoop, if_neg h12, hpre, ne_eq, not_true_eq_false,
              if_false, if_pos hinc]
          · simp only [extractLoop, if_neg h12, hpre, ne_eq, not_true_eq_false,
              if_false, if_neg hinc]
            have hr : extractLoop m (b.drop (8 + bytesToNat (slice b 4 4) + 4)) =
                extractLoop k (b.drop (8 + bytesToNat (slice b 4 4) + 4)) := by
              apply ih
              · simp; omega
              · simp; omega
            rw [hr]
        · simp only [extractLoop, if_neg h12, hpre, ne_eq, not_false_eq_true, if_true]
          apply ih
          · simp; omega
          · simp; omega

theorem extractFrames_low (b : Bytes) (h : b.length < 12) :
    extractFrames b = ([], b) := extractLoop_low _ _ h

theorem extractFrames_skip (b : Bytes) (h12 : ¬ b.length < 12)
    (hpre : bytesToNat (slice b 0 4) ≠ 0) :
    extractFrames b = extractFrames (b.drop 1) := by
  unfold extractFrames
  obtain ⟨m, hm⟩ : ∃ m, b.length = m + 1 := ⟨b.length - 1, by omega⟩
  rw [hm]
  simp only [extractLoop, if_neg h12, hpre, ne_eq, not_false_eq_true, if_true]
  apply extractLoop_congr
  · simp; omega
  · simp

theorem extractFrames_incomplete (b : Bytes) (h12 : ¬ b.length < 12)
    (hpre : bytesToNat (slice b 0 4) = 0)
    (hinc : b.length < 8 + bytesToNat (slice b 4 4) + 4) :
    extractFrames b = ([], b) := by
  unfold extractFrames
  obtain ⟨m, hm⟩ : ∃ m, b.length = m + 1 := ⟨b.length - 1, by omega⟩
  rw [hm]
  simp only [extractLoop, if_neg h12, hpre, ne_eq, not_true_eq_false, if_false,
    if_pos hinc]

theorem extractFrames_complete (b : Bytes) (h12 : ¬ b.length < 12)
    (hpre : bytesToNat (slice b 0 4) = 0)
    (hcomp : ¬ b.length < 8 + bytesToNat (slice b 4 4) + 4) :
    extractFrames b =
      (b.take (8 + bytesToNat (slice b 4 4) + 4) ::
         (extractFrames (b.drop (8 + bytesToNat (slice b 4 4) + 4))).1,
       (extractFrames (b.drop (8 + bytesToNat (slice b 4 4) + 4))).2) := by
  unfold extractFrames
  obtain ⟨m, hm⟩ : ∃ m, b.length = m + 1 := ⟨b.length - 1, by omega⟩
  rw [hm]
  simp only [extractLoop, if_neg h12, hpre, ne_eq, not_true_eq_false, if_false,
    if_neg hcomp]
  have hr : extractLoop m (b.drop (8 + bytesToNat (slice b 4 4) + 4)) =
      extractLoop (b.drop (8 + bytesToNat (slice b 4 4) + 4)).length
        (b.drop (8 + bytesToNat (slice b 4 4) + 4)) := by
    apply extractLoop_congr
    · simp; omega
    · simp
  rw [hr]

theorem extract_append_aux : ∀ (n : Nat) (b c : Bytes), b.length ≤ n →
    extractFrames (b ++ c) =
      ((extractFrames b).1 ++ (extractFrames ((extractFrames b).2 ++ c)).1,
       (extractFrames ((extractFrames b).2 ++ c)).2) := by
  intro n
  induction n with
  | zero =>
    intro b c hb
    have : b = [] := List.eq_nil_of_length_eq_zero (by omega)
    subst this
    rw [extractFrames_low [] (by simp)]
    simp
  | succ m ih =>
    intro b c hb
    by_cases h12 : b.length < 12
    · rw [extractFrames_low b h12]
      simp
    · by_cases hpre : bytesToNat (slice b 0 4) = 0
      · by_cases hinc : b.length < 8 + bytesToNat (slice b 4 4) + 4
        · rw [extractFrames_incomplete b h12 hpre hinc]
          simp
        · have hsl0 : slice (b ++ c) 0 4 = slice b 0 4 := slice_append b c 0 4 (by omega)
          have hsl4 : slice (b ++ c) 4 4 = slice b 4 4 := slice_append b c 4 4 (by omega)
          have h12' : ¬ (b ++ c).length < 12 := by simp; omega
          have hcomp' : ¬ (b ++ c).length <
              8 + bytesToNat (slice (b ++ c) 4 4) + 4 := by
            rw [hsl4]; simp; omega
          rw [extractFrames_complete b h12 hpre hinc]
          rw [extractFrames_complete (b ++ c) h12' (by rw [hsl0]; exact hpre) hcomp']
          rw [hsl4]
          rw [List.take_append_of_le_length (by omega)]
          rw [List.drop_append_of_le_length (by omega)]
          rw [ih (b.drop (8 + bytesToNat (slice b 4 4) + 4)) c (by simp; omega)]
          simp
      · have hsl0 : slice (b ++ c) 0 4 = slice b 0 4 := slice_append b c 0 4 (by omega)
        have h12' : ¬ (b ++ c).length < 12 := by simp; omega
        rw [extractFrames_skip b h12 hpre]
        rw [extractFrames_skip (b ++ c) h12' (by rw [hsl0]; exact hpre)]
        rw [List.drop_append_of_le_length (by omega)]
        exact ih (b.drop 1) c (by simp; omega)

/-- Leftover buffers are quiescent: re-running extraction on the leftover
of a previous extraction emits nothing and consumes nothing. -/
theorem extract_leftover_quiescent (b : Bytes) :
    extractFrames ((extractFrames b).2) = ([], (extractFrames b).2) := by
  have h := extract_append_aux b.length b [] (le_refl _)
  rw [List.append_nil] at h
  have h1 : (extractFrames b).1 =
      (extractFrames b).1 ++ (extractFrames ((extractFrames b).2 ++ [])).1 := by
    conv_lhs => rw [h]
  have h2 : (extractFrames ((extractFrames b).2 ++ [])).1 = [] := by
    have := List.self_eq_append_right.mp h1
    exact this
  have h3 : (extractFrames b).2 = (extractFrames ((extractFrames b).2 ++ [])).2 := by
    conv_lhs => rw [h]
  rw [List.append_nil] at h2 h3
  ext1
  · rw [h2]
  · rw [← h3]

theorem feedAll_eq_extract : ∀ (chunks : List Bytes) (carry : Bytes),
    extractFrames carry = ([], carry) →
    feedAll chunks carry = extractFrames (carry ++ chunks.flatten) := by
  intro chunks
  induction chunks with
  | nil =>
    intro carry hq
    simp only [feedAll, List.flatten_nil, List.append_nil]
    rw [hq]
  | cons c rest ih =>
    intro carry hq
    simp only [feedAll, List.flatten_cons]
    rw [← List.append_assoc]
    rw [extract_append_aux (carry ++ c).length (carry ++ c) rest.flatten (le_refl _)]
    have hrec := ih (extractFrames (carry ++ c)).2 (extract_leftover_quiescent (carry ++ c))
    rw [hrec]

/-- C3.  For every byte sequence and every way of splitting it into chunks
fed successively to the reassembler, the concatenation of the frames
emitted across all feed calls equals the frames from feeding the whole
sequence at once (and the final leftover agrees); a started frame with
fewer than 8 + L + 4 bytes buffered emits nothing and consumes nothing;
a nonzero 4-byte preamble advances the buffer by exactly one byte and
rescans. -/
theorem chunk_invariance_of_reassembly :
    (∀ chunks : List Bytes, feedAll chunks [] = extractFrames chunks.flatten) ∧
    (∀ buf : Bytes, ¬ buf.length < 12 → bytesToNat (slice buf 0 4) = 0 →
       buf.length < 8 + bytesToNat (slice buf 4 4) + 4 →
       extractFrames buf = ([], buf)) ∧
    (∀ buf : Bytes, ¬ buf.length < 12 → bytesToNat (slice buf 0 4) ≠ 0 →
       extractFrames buf = extractFrames (buf.drop 1)) := by
  refine ⟨fun chunks => ?_, extractFrames_incomplete, extractFrames_skip⟩
  rw [feedAll_eq_extract chunks [] (extractFrames_low [] (by simp))]
  rw [List.nil_append]

/-- Witness for C3 at concrete inputs: the counterexample-free frame split
into two chunks, a 12-byte incomplete frame, and a 12-byte buffer with a
bad preamble. -/
theorem chunk_invariance_of_reassembly_witness :
    feedAll [slice wfFrame 0 20, slice wfFrame 20 24] [] =
      extractFrames (List.flatten [slice wfFrame 0 20, slice wfFrame 20 24]) ∧
    extractFrames [0, 0, 0, 0, 0, 0, 0, 32, 8, 1, 0, 0] =
      ([], [0, 0, 0, 0, 0, 0, 0, 32, 8, 1, 0, 0]) ∧
    extractFrames [1, 0, 0, 0, 0, 0, 0, 32, 8, 1, 0, 0] =
      extractFrames (List.drop 1 [1, 0, 0, 0, 0, 0, 0, 32, 8, 1, 0, 0]) :=
  ⟨chunk_invariance_of_reassembly.1 _,
   chunk_invariance_of_reassembly.2.1 _ (by decide) (by decide) (by decide),
   chunk_invariance_of_reassembly.2.2 _ (by decide) (by decide)⟩

/-!
C1 machinery: when the reference decoder succeeds on a record, the source
parser reads exactly the same bytes and produces the same record.
-/

theorem byteAt_some_lt {b : Bytes} {i v : Nat} (h : byteAt b i = some v) :
    i < b.length := by
  unfold byteAt at h
  exact (List.get?_eq_some.mp h).1

theorem bytesToNat_slice_one {b : Bytes} {i v : Nat} (h : byteAt b i = some v) :
    bytesToNat (slice b i 1) = v := by
  unfold byteAt at h
  obtain ⟨hlt, hget⟩ := List.get?_eq_some.mp h
  unfold slice
  rw [List.drop_eq_get_cons hlt, hget]
  simp [bytesToNat]

theorem refSlice_some {b : Bytes} {i n : Nat} {v : Bytes} (h : refSlice b i n = some v) :
    v = slice b i n ∧ i + n ≤ b.length := by
  unfold refSlice at h
  split at h
  · exact ⟨(Option.some.inj h).symm, by assumption⟩
  · cases h

theorem refReadIo_to_parse (buf : Bytes) (width : Nat) :
    ∀ (n off : Nat) (io res : List (Nat × Nat)) (offE : Nat),
      refReadIo buf width n off io = some (res, offE) →
      parseIoGroup buf width n off io = some (res, offE) := by
  intro n
  induction n with
  | zero =>
    intro off io res offE h
    simpa [refReadIo, parseIoGroup] using h
  | succ m ih =>
    intro off io res offE h
    unfold refReadIo at h
    unfold parseIoGroup
    cases hid : byteAt buf off with
    | none => simp only [hid] at h; exact Option.noConfusion h
    | some ioId =>
      simp only [hid] at h
      cases hv : refSlice buf (off + 1) width with
      | none => simp only [hv] at h; exact Option.noConfusion h
      | some v =>
        simp only [hv] at h
        obtain ⟨hveq, hbound⟩ := refSlice_some hv
        by_cases hw : width = 1
        · subst hw
          have hb1 : ∃ w, byteAt buf (off + 1) = some w := by
            unfold byteAt
            have : off + 1 < buf.length := by omega
            exact ⟨buf.get ⟨off + 1, this⟩, List.get?_eq_get this⟩
          obtain ⟨w, hw1⟩ := hb1
          have hwv : bytesToNat v = w := by
            rw [hveq]; exact bytesToNat_slice_one hw1
          simp only [hid, hw1, if_pos rfl]
          rw [← hwv]
          exact ih _ _ _ _ h
        · simp only [hid, if_neg hw]
          rw [← hveq]
          exact ih _ _ _ _ h

theorem refParseRecord_to_parse {buf : Bytes} {off : Nat} {r : AvlRecord} {offE : Nat}
    (h : refParseRecord buf off = some (r, offE)) :
    parseOneRecord buf off = some (r, offE) ∧ off + 26 ≤ buf.length := by
  unfold refParseRecord at h
  split at h
  case h_2 => cases h
  case h_1 ts priority lon lat alt ang satellites spd eventId nTot n1
      hts hprio hlon hlat halt hang hsat hspd hev hnt hn1 =>
    have hb26 : off + 26 ≤ buf.length := by
      have := byteAt_some_lt hn1
      omega
    refine ⟨?_, hb26⟩
    cases hg1 : refReadIo buf 1 n1 (off + 27) [] with
    | none => simp only [hg1] at h; exact Option.noConfusion h
    | some p1 =>
      obtain ⟨io1, o1⟩ := p1
      simp only [hg1] at h
      cases hn2 : byteAt buf o1 with
      | none => simp only [hn2] at h; exact Option.noConfusion h
      | some n2 =>
        simp only [hn2] at h
        cases hg2 : refReadIo buf 2 n2 (o1 + 1) io1 with
        | none => simp only [hg2] at h; exact Option.noConfusion h
        | some p2 =>
          obtain ⟨io2, o2⟩ := p2
          simp only [hg2] at h
          cases hn4 : byteAt buf o2 with
          | none => simp only [hn4] at h; exact Option.noConfusion h
          | some n4 =>
            simp only [hn4] at h
            cases hg4 : refReadIo buf 4 n4 (o2 + 1) io2 with
            | none => simp only [hg4] at h; exact Option.noConfusion h
            | some p4 =>
              obtain ⟨io4, o3⟩ := p4
              simp only [hg4] at h
              cases hn8 : byteAt buf o3 with
              | none => simp only [hn8] at h; exact Option.noConfusion h
              | some n8 =>
                simp only [hn8] at h
                cases hg8 : refReadIo buf 8 n8 (o3 + 1) io4 with
                | none => simp only [hg8] at h; exact Option.noConfusion h
                | some p8 =>
                  obtain ⟨io8, o4⟩ := p8
                  simp only [hg8] at h
                  unfold parseOneRecord
                  simp only [hprio, hsat, hev, hnt, hn1,
                    refReadIo_to_parse buf 1 _ _ _ _ _ hg1, hn2,
                    refReadIo_to_parse buf 2 _ _ _ _ _ hg2, hn4,
                    refReadIo_to_parse buf 4 _ _ _ _ _ hg4, hn8,
                    refReadIo_to_parse buf 8 _ _ _ _ _ hg8]
                  obtain ⟨hts1, _⟩ := refSlice_some hts
                  obtain ⟨hlon1, _⟩ := refSlice_some hlon
                  obtain ⟨hlat1, _⟩ := refSlice_some hlat
                  obtain ⟨halt1, _⟩ := refSlice_some halt
                  obtain ⟨hang1, _⟩ := refSlice_some hang
                  obtain ⟨hspd1, _⟩ := refSlice_some hspd
                  rw [← hts1, ← hlon1, ← hlat1, ← halt1, ← hang1, ← hspd1]
                  exact h

theorem refDecodeAux_length_le (buf : Bytes) :
    ∀ (n off : Nat), (refDecodeAux buf n off).1.length ≤ n := by
  intro n
  induction n with
  | zero => intro off; simp [refDecodeAux]
  | succ m ih =>
    intro off
    unfold refDecodeAux
    cases h : refParseRecord buf off with
    | none => simp
    | some p =>
      obtain ⟨r, off'⟩ := p
      simpa using Nat.succ_le_succ (ih off')

theorem refDecode_to_parseRecords (buf : Bytes) :
    ∀ (n off : Nat),
      ((refDecodeAux buf n off).1.length = n ∨
        buf.length < (refDecodeAux buf n off).2 + 26) →
      parseRecords buf n off = some (refDecodeAux buf n off) := by
  intro n
  induction n with
  | zero => intro off _; simp [refDecodeAux, parseRecords]
  | succ m ih =>
    intro off hstop
    cases h : refParseRecord buf off with
    | none =>
      have hd : refDecodeAux buf (m + 1) off = ([], off) := by
        simp only [refDecodeAux, h]
      rw [hd] at hstop ⊢
      have hlen : buf.length < off + 26 := by
        rcases hstop with h1 | h1
        · simp at h1
        · simpa using h1
      unfold parseRecords
      rw [if_pos (by omega)]
    | some p =>
      obtain ⟨r, off'⟩ := p
      have hd : refDecodeAux buf (m + 1) off =
          (r :: (refDecodeAux buf m off').1, (refDecodeAux buf m off').2) := by
        simp only [refDecodeAux, h]
      rw [hd] at hstop ⊢
      obtain ⟨hone, hb⟩ := refParseRecord_to_parse h
      have hrec : parseRecords buf m off' = some (refDecodeAux buf m off') := by
        apply ih
        rcases hstop with h1 | h1
        · left; simpa using h1
        · right; exact h1
      unfold parseRecords
      simp only [if_neg (show ¬ off + 26 > buf.length by omega), hone, hrec]

/-- C1 (amended).  For a frame passing the header checks with codec 0x08
and declared count n, whenever the reference longest-prefix decoding either
decodes all n records or stops with fewer than 26 bytes remaining, the
parser returns exactly that reference prefix, whose length is at most the
declared count. -/
theorem codec8_decode_matches_reference (buf : Bytes) (n : Nat)
    (h12 : ¬ buf.length < 12)
    (hlen : ¬ buf.length < 8 + bytesToNat (slice buf 4 4) + 4)
    (hpre : bytesToNat (slice buf 0 4) = 0)
    (hcodec : byteAt buf 8 = some 8)
    (hn : byteAt buf 9 = some n)
    (hstop : (refDecodeAux buf n 10).1.length = n ∨
      buf.length < (refDecodeAux buf n 10).2 + 26) :
    parse_codec8_packet buf = .ok (some (refDecodeAux buf n 10).1) ∧
      (refDecodeAux buf n 10).1.length ≤ n := by
  constructor
  · have hrec := refDecode_to_parseRecords buf n 10 hstop
    unfold parse_codec8_packet
    rw [if_neg h12]
    simp only [hpre, ne_eq, not_true_eq_false, if_false, if_neg hlen, hcodec, hn, hrec,
      eq_self_iff_true, not_true_eq_false, not_false_eq_true, if_true]
  · exact refDecodeAux_length_le buf n 10

/-- Witness for C1 at the complete one-record fixture frame. -/
theorem codec8_decode_matches_reference_witness :
    parse_codec8_packet wfFrame = .ok (some (refDecodeAux wfFrame 1 10).1) ∧
      (refDecodeAux wfFrame 1 10).1.length ≤ 1 :=
  codec8_decode_matches_reference wfFrame 1 (by decide) (by decide) (by decide)
    (by decide) (by decide) (by decide)

/-- C1 counterexample.  cx1Frame declares one record but its record data is
truncated with 26 bytes still buffered: the reference longest prefix of
fully decodable records is empty, yet the parser does not return that
prefix — it raises an IndexError (modelled by exn), losing the frame. -/
theorem codec8_truncated_record_loses_frame :
    parse_codec8_packet cx1Frame = PResult.exn ∧
    refDecodeAux cx1Frame 1 10 = ([], 10) ∧
    PResult.exn ≠ PResult.ok (some (refDecodeAux cx1Frame 1 10).1) := by
  exact ⟨by decide, by decide, by decide⟩

/-!
C6 machinery: a fully decodable record prefix reads only bytes of the
buffer it succeeded on, so extending the buffer (with checksum bytes)
cannot change it.
-/

theorem byteAt_append {b : Bytes} (c : Bytes) {i v : Nat}
    (h : byteAt b i = some v) : byteAt (b ++ c) i = some v := by
  unfold byteAt at h ⊢
  rw [List.get?_append (byteAt_some_lt h)]
  exact h

theorem refSlice_append {b : Bytes} (c : Bytes) {i n : Nat} {v : Bytes}
    (h : refSlice b i n = some v) : refSlice (b ++ c) i n = some v := by
  obtain ⟨hv, hb⟩ := refSlice_some h
  unfold refSlice
  rw [if_pos (by simp; omega)]
  rw [slice_append b c i n hb, ← hv]

theorem refReadIo_append {b : Bytes} (c : Bytes) (width : Nat) :
    ∀ (n off : Nat) (io res : List (Nat × Nat)) (offE : Nat),
      refReadIo b width n off io = some (res, offE) →
      refReadIo (b ++ c) width n off io = some (res, offE) := by
  intro n
  induction n with
  | zero =>
    intro off io res offE h
    simpa [refReadIo] using h
  | succ m ih =>
    intro off io res offE h
    unfold refReadIo at h ⊢
    cases hid : byteAt b off with
    | none => simp only [hid] at h; exact Option.noConfusion h
    | some ioId =>
      simp only [hid] at h
      cases hv : refSlice b (off + 1) width with
      | none => simp only [hv] at h; exact Option.noConfusion h
      | some v =>
        simp only [hv] at h
        simp only [byteAt_append c hid, refSlice_append c hv]
        exact ih _ _ _ _ h

theorem refParseRecord_append {b : Bytes} (c : Bytes) {off : Nat} {r : AvlRecord}
    {offE : Nat} (h : refParseRecord b off = some (r, offE)) :
    refParseRecord (b ++ c) off = some (r, offE) := by
  unfold refParseRecord at h
  split at h
  case h_2 => exact Option.noConfusion h
  case h_1 ts priority lon lat alt ang satellites spd eventId nTot n1
      hts hprio hlon hlat halt hang hsat hspd hev hnt hn1 =>
    cases hg1 : refReadIo b 1 n1 (off + 27) [] with
    | none => simp only [hg1] at h; exact Option.noConfusion h
    | some p1 =>
      obtain ⟨io1, o1⟩ := p1
      simp only [hg1] at h
      cases hn2 : byteAt b o1 with
      | none => simp only [hn2] at h; exact Option.noConfusion h
      | some n2 =>
        simp only [hn2] at h
        cases hg2 : refReadIo b 2 n2 (o1 + 1) io1 with
        | none => simp only [hg2] at h; exact Option.noConfusion h
        | some p2 =>
          obtain ⟨io2, o2⟩ := p2
          simp only [hg2] at h
          cases hn4 : byteAt b o2 with
          | none => simp only [hn4] at h; exact Option.noConfusion h
          | some n4 =>
            simp only [hn4] at h
            cases hg4 : refReadIo b 4 n4 (o2 + 1) io2 with
            | none => simp only [hg4] at h; exact Option.noConfusion h
            | some p4 =>
              obtain ⟨io4, o3⟩ := p4
              simp only [hg4] at h
              cases hn8 : byteAt b o3 with
              | none => simp only [hn8] at h; exact Option.noConfusion h
              | some n8 =>
                simp only [hn8] at h
                cases hg8 : refReadIo b 8 n8 (o3 + 1) io4 with
                | none => simp only [hg8] at h; exact Option.noConfusion h
                | some p8 =>
                  obtain ⟨io8, o4⟩ := p8
                  simp only [hg8] at h
                  unfold refParseRecord
                  simp only [refSlice_append c hts, byteAt_append c hprio,
                    refSlice_append c hlon, refSlice_append c hlat,
                    refSlice_append c halt, refSlice_append c hang,
                    byteAt_append c hsat, refSlice_append c hspd,
                    byteAt_append c hev, byteAt_append c hnt, byteAt_append c hn1,
                    refReadIo_append c 1 _ _ _ _ _ hg1, byteAt_append c hn2,
                    refReadIo_append c 2 _ _ _ _ _ hg2, byteAt_append c hn4,
                    refReadIo_append c 4 _ _ _ _ _ hg4, byteAt_append c hn8,
                    refReadIo_append c 8 _ _ _ _ _ hg8]
                  exact h

theorem refDecodeAux_append {b : Bytes} (c : Bytes) :
    ∀ (n off : Nat), (refDecodeAux b n off).1.length = n →
      refDecodeAux (b ++ c) n off = refDecodeAux b n off := by
  intro n
  induction n with
  | zero => intro off _; simp [refDecodeAux]
  | succ m ih =>
    intro off hfull
    cases h : refParseRecord b off with
    | none =>
      have hd : refDecodeAux b (m + 1) off = ([], off) := by
        simp only [refDecodeAux, h]
      rw [hd] at hfull
      simp at hfull
    | some p =>
      obtain ⟨r, off'⟩ := p
      have hd : refDecodeAux b (m + 1) off =
          (r :: (refDecodeAux b m off').1, (refDecodeAux b m off').2) := by
        simp only [refDecodeAux, h]
      rw [hd] at hfull
      have hlen : (refDecodeAux b m off').1.length = m := by simpa using hfull
      have hd2 : refDecodeAux (b ++ c) (m + 1) off =
          (r :: (refDecodeAux (b ++ c) m off').1, (refDecodeAux (b ++ c) m off').2) := by
        simp only [refDecodeAux, refParseRecord_append c h]
      rw [hd2, hd, ih off' hlen]

/-- Parsing a frame whose declared records are all fully decodable inside
the pre-checksum prefix P yields exactly those records, for any 4-byte
checksum suffix. -/
theorem parse_of_full_prefix (P c : Bytes) (n : Nat)
    (hc : c.length = 4)
    (hP : P.length = 8 + bytesToNat (slice P 4 4))
    (hpre : bytesToNat (slice P 0 4) = 0)
    (hcodec : byteAt P 8 = some 8)
    (hn : byteAt P 9 = some n)
    (hfull : (refDecodeAux P n 10).1.length = n) :
    parse_codec8_packet (P ++ c) = .ok (some (refDecodeAux P n 10).1) := by
  have h8 : 8 < P.length := byteAt_some_lt hcodec
  have hpre' : bytesToNat (slice (P ++ c) 0 4) = 0 := by
    rw [slice_append P c 0 4 (by omega)]; exact hpre
  have hL : bytesToNat (slice (P ++ c) 4 4) = bytesToNat (slice P 4 4) := by
    rw [slice_append P c 4 4 (by omega)]
  have hdec : refDecodeAux (P ++ c) n 10 = refDecodeAux P n 10 :=
    refDecodeAux_append c n 10 hfull
  have hrec : parseRecords (P ++ c) n 10 = some (refDecodeAux (P ++ c) n 10) := by
    apply refDecode_to_parseRecords
    left
    rw [hdec]
    exact hfull
  unfold parse_codec8_packet
  rw [if_neg (by simp; omega)]
  simp only [hpre', ne_eq, not_true_eq_false, if_false]
  rw [if_neg (by rw [hL]; simp; omega)]
  simp only [byteAt_append c hcodec, byteAt_append c hn, hrec, hdec,
    eq_self_iff_true, not_true_eq_false, if_false, ne_eq, not_false_eq_true, if_true]

/-- C6 (amended).  The frame step recomputes the CRC-16 (always a 16-bit
value) over the payload and compares it with the trailing bytes, but the
comparison never alters decoding: for a frame whose declared records all
decode inside the pre-checksum prefix P, any two 4-byte checksum suffixes
give the same decoded records and the same frame-step behavior.  (Without
that containment, record data can spill into the checksum region, which is
the corrected part of the claim.) -/
theorem crc_checked_but_never_aborts (P c1 c2 : Bytes) (n : Nat)
    (dir : List (Bytes × Nat)) (imei : Bytes) (dbOk : Bool)
    (hc1 : c1.length = 4) (hc2 : c2.length = 4)
    (hP : P.length = 8 + bytesToNat (slice P 4 4))
    (hpre : bytesToNat (slice P 0 4) = 0)
    (hcodec : byteAt P 8 = some 8)
    (hn : byteAt P 9 = some n)
    (hfull : (refDecodeAux P n 10).1.length = n) :
    parse_codec8_packet (P ++ c1) = .ok (some (refDecodeAux P n 10).1) ∧
    parse_codec8_packet (P ++ c1) = parse_codec8_packet (P ++ c2) ∧
    backendFrameStep dir imei dbOk (P ++ c1) = backendFrameStep dir imei dbOk (P ++ c2) ∧
    (∀ data : Bytes, calculate_crc16 data < 65536) := by
  have h1 := parse_of_full_prefix P c1 n hc1 hP hpre hcodec hn hfull
  have h2 := parse_of_full_prefix P c2 n hc2 hP hpre hcodec hn hfull
  refine ⟨h1, h1.trans h2.symm, ?_, ?_⟩
  · unfold backendFrameStep
    rw [h1, h2]
  · intro data
    unfold calculate_crc16
    have h : ∀ x : Nat, x &&& 65535 ≤ 65535 := fun x => Nat.and_le_right
    exact Nat.lt_of_le_of_lt (h _) (by norm_num)

/-- Witness for C6 at the complete one-record fixture: a zero checksum and
a wrong checksum decode identically. -/
theorem crc_checked_but_never_aborts_witness :
    parse_codec8_packet (c6WitP ++ [0, 0, 0, 0]) =
      .ok (some (refDecodeAux c6WitP 1 10).1) ∧
    parse_codec8_packet (c6WitP ++ [0, 0, 0, 0]) =
      parse_codec8_packet (c6WitP ++ [9, 9, 9, 9]) ∧
    backendFrameStep dirFix [0x31, 0x32] true (c6WitP ++ [0, 0, 0, 0]) =
      backendFrameStep dirFix [0x31, 0x32] true (c6WitP ++ [9, 9, 9, 9]) ∧
    (∀ data : Bytes, calculate_crc16 data < 65536) :=
  crc_checked_but_never_aborts c6WitP [0, 0, 0, 0] [9, 9, 9, 9] 1 dirFix
    [0x31, 0x32] true (by decide) (by decide) (by decide) (by decide) (by decide)
    (by decide) (by decide)

/-- C6 counterexample.  cx6FrameA and cx6FrameB are complete frames
differing only in their trailing 4 checksum bytes, yet they decode to
different record sequences: the truncated record reads the first checksum
byte as the 8-byte-group count, so frame B gains an I/O element (7, 0). -/
theorem frames_differing_in_crc_decode_differently :
    parse_codec8_packet cx6FrameA =
      .ok (some [{ wfRecord with ioElements := [] }]) ∧
    parse_codec8_packet cx6FrameB =
      .ok (some [{ wfRecord with ioElements := [(7, 0)] }]) ∧
    parse_codec8_packet cx6FrameA ≠ parse_codec8_packet cx6FrameB := by
  exact ⟨by decide, by decide, by decide⟩

/-!
C7: acknowledgement policy; C5: absence of timestamp filtering; C8: the
handshake fall-through.
-/

/-- C7 (amended).  The standalone tcp-server always acknowledges the
declared record count — its last output for every frame, supported codec or
not, is the 4-byte big-endian declared count, regardless of how many
records decode, filter out or persist.  The backend server does not: a
frame whose codec id is not 0x08 (hence parsed to None) is answered with
the four zero bytes, not the declared count. -/
theorem ack_is_declared_count (vid : Option Nat) (packet : Bytes)
    (dir : List (Bytes × Nat)) (imei : Bytes) (dbOk : Bool) (c : Nat)
    (h12 : ¬ packet.length < 12)
    (hpre : bytesToNat (slice packet 0 4) = 0)
    (hlen : ¬ packet.length < 8 + bytesToNat (slice packet 4 4) + 4)
    (hcodec : byteAt packet 8 = some c) (hc : c ≠ 8) :
    (processFrame vid packet).getLast? =
      some (TcpOut.sendAck (natToBytesBE 4 (packet.getD 9 0))) ∧
    backendFrameStep dir imei dbOk packet = .ok ([0, 0, 0, 0], []) := by
  constructor
  · unfold processFrame
    by_cases hb : packet.getD 8 0 = 8 ∨ packet.getD 8 0 = 142
    · rw [if_pos hb]
      exact List.getLast?_concat _
    · rw [if_neg hb]
      rfl
  · unfold backendFrameStep parse_codec8_packet
    rw [if_neg h12]
    simp only [hpre, ne_eq, not_true_eq_false, if_false, if_neg hlen, hcodec,
      if_pos hc]

/-- Witness for C7: a codec 0x09 frame declaring one record. -/
theorem ack_is_declared_count_witness :
    (processFrame (some 5) cx7Frame).getLast? =
      some (TcpOut.sendAck (natToBytesBE 4 (cx7Frame.getD 9 0))) ∧
    backendFrameStep dirFix [0x31, 0x32] true cx7Frame = .ok ([0, 0, 0, 0], []) :=
  ack_is_declared_count (some 5) cx7Frame dirFix [0x31, 0x32] true 9 (by decide)
    (by decide) (by decide) (by decide) (by decide)

/-- C7 counterexample.  For the codec 0x09 frame declaring one record, the
backend answers 0x00000000 while the claim requires the declared count
0x00000001 (which is what the tcp-server sends for the very same frame). -/
theorem backend_ack_not_declared_count :
    backendFrameStep dirFix [0x31, 0x32] true cx7Frame = .ok ([0, 0, 0, 0], []) ∧
    natToBytesBE 4 (cx7Frame.getD 9 0) = [0, 0, 0, 1] ∧
    ([0, 0, 0, 0] : Bytes) ≠ [0, 0, 0, 1] ∧
    processFrame (some 5) cx7Frame = [TcpOut.sendAck [0, 0, 0, 1]] := by
  exact ⟨by decide, by decide, by decide, by decide⟩

/-- C5 (amended).  No timestamp-sanity check exists: every record the
tcp-server decodes from a supported-codec frame is handed to
store_telemetry unchanged whatever its timestamp, and a record from a
device with no prior filter state is accepted (first-record rule) and
stored whenever the database insert succeeds. -/
theorem decoded_records_flow_to_store_regardless_of_timestamp
    (vid : Option Nat) (packet : Bytes) (td : TelemetryData)
    (hcodec : packet.getD 8 0 = 8 ∨ packet.getD 8 0 = 142)
    (hmem : td ∈ tcpRecordLoop packet (packet.getD 9 0) 10) :
    TcpOut.storeCall vid td ∈ processFrame vid packet ∧
    (∀ (t : TrigOps) (now : ℚ) (v : Nat),
      store_telemetry t true [] now v td = ((true, .firstRecord), [(v, ⟨td, now⟩)])) := by
  constructor
  · unfold processFrame
    rw [if_pos hcodec]
    exact List.mem_append_left _ (List.mem_map_of_mem _ hmem)
  · intro t now v
    rfl

/-- Witness for C5 at the year-1990 fixture record. -/
theorem decoded_records_flow_to_store_regardless_of_timestamp_witness :
    TcpOut.storeCall (some 5) cx5Td ∈ processFrame (some 5) cx5Frame ∧
    (∀ (t : TrigOps) (now : ℚ) (v : Nat),
      store_telemetry t true [] now v cx5Td =
        ((true, .firstRecord), [(v, ⟨cx5Td, now⟩)])) :=
  decoded_records_flow_to_store_regardless_of_timestamp (some 5) cx5Frame cx5Td
    (by decide) (by decide)

/-- C5 counterexample.  The frame carrying a 1990-01-01 timestamp
(631,152,000,000 ms, far before year 2000) is decoded, handed to
store_telemetry, accepted by the first-record rule and stored — not
discarded as corrupt. -/
theorem year1990_record_decoded_and_stored :
    parse_avl_record cx5Frame 10 = some (cx5Td, 30) ∧
    cx5Td.timestampMs = 631152000000 ∧
    processFrame (some 5) cx5Frame =
      [TcpOut.storeCall (some 5) cx5Td, TcpOut.sendAck [0, 0, 0, 1]] ∧
    store_telemetry trigZero true [] 1000 5 cx5Td =
      ((true, SaveReason.firstRecord), [(5, ⟨cx5Td, 1000⟩)]) := by
  exact ⟨by decide, by decide, by decide, by decide⟩

/-- C8 (code bug, evaluated).  Left: feeding one chunk consisting of the
byte 0x01 followed by a complete frame to a brand-new session makes the
incomplete-handshake branch fall through to the packet loop: the session
is still unauthenticated (imei none), yet store_telemetry is invoked with
vehicle id None and a 4-byte acknowledgement is sent.  Right: the reject
path itself behaves as the claim says — an unknown identifier gets the
single byte 0x00 and the connection closes with no frame processed. -/
theorem unauthenticated_frame_processed :
    recvChunk dirFix ⟨none, none, [], false⟩ cx8Chunk =
      (⟨none, none, [], false⟩,
       [TcpOut.storeCall none cx8Td, TcpOut.sendAck [0, 0, 0, 1]]) ∧
    recvChunk dirFix ⟨none, none, [], false⟩ cx8RejChunk =
      (⟨some [0x39], none, [0, 1, 0x39], true⟩, [TcpOut.sendImeiReject]) := by
  exact ⟨by decide, by decide⟩

/-!
Adaptive-filter theorems (C2, C4, C10).
-/

theorem headingDelta_code_eq_spec (a b : Nat) (ha : a < 360) (hb : b < 360) :
    (if absQ ((a : ℚ) - (b : ℚ)) > 180 then 360 - absQ ((a : ℚ) - (b : ℚ))
     else absQ ((a : ℚ) - (b : ℚ))) = specHeadingDelta (a : ℚ) (b : ℚ) := by
  have ha' : (a : ℚ) < 360 := by exact_mod_cast ha
  have hb' : (b : ℚ) < 360 := by exact_mod_cast hb
  have ha0 : (0 : ℚ) ≤ (a : ℚ) := by positivity
  have hb0 : (0 : ℚ) ≤ (b : ℚ) := by positivity
  unfold specHeadingDelta minQ absQ
  split_ifs <;> linarith

theorem cacheLookup_insert (cache : SaveCache) (vid : Nat) (e : CacheEntry) :
    cacheLookup (cacheInsert cache vid e) vid = some e := by
  induction cache with
  | nil => simp [cacheInsert, cacheLookup]
  | cons p rest ih =>
    obtain ⟨k, e'⟩ := p
    unfold cacheInsert
    by_cases hk : k = vid
    · simp [hk, cacheLookup]
    · simp [hk, cacheLookup, ih]

/-- C2.  The filter decision is exactly the claim's ordered rule cascade:
a vehicle with no Filter State is accepted; otherwise the decision equals
the first-true-rule evaluation of keep-alive, displacement, moving
interval, stationary interval, speed delta, heading delta (shortest
angular distance, for headings in the documented 0..359 range), satellite
delta, else reject; and a point whose haversine displacement is 100 m is
accepted regardless of elapsed time. -/
theorem adaptive_filter_rule_precedence (t : TrigOps) (cache : SaveCache)
    (now : ℚ) (vid : Nat) (td : TelemetryData) :
    (cacheLookup cache vid = none →
      (should_save_telemetry t cache now vid td).1 = true) ∧
    (∀ e : CacheEntry, cacheLookup cache vid = some e →
      e.data.angle < 360 → td.angle < 360 →
      (should_save_telemetry t cache now vid td).1 =
        specAccept true
          (haversine_distance t e.data.latitude e.data.longitude
            td.latitude td.longitude)
          (now - e.timestamp) td.speed e.data.speed td.angle e.data.angle
          td.satellites e.data.satellites) ∧
    (∀ e : CacheEntry, cacheLookup cache vid = some e →
      haversine_distance t e.data.latitude e.data.longitude
        td.latitude td.longitude = 100 →
      (should_save_telemetry t cache now vid td).1 = true) := by
  refine ⟨fun hnone => ?_, fun e he ha hb => ?_, fun e he hdist => ?_⟩
  · simp only [should_save_telemetry, hnone]
  · have hd := headingDelta_code_eq_spec td.angle e.data.angle hb ha
    have hcomm :
        (specHeadingDelta (td.angle : ℚ) (e.data.angle : ℚ) ≥ 30 ∧
          (td.speed : ℚ) ≥ 5) =
        ((td.speed : ℚ) ≥ 5 ∧
          specHeadingDelta (td.angle : ℚ) (e.data.angle : ℚ) ≥ 30) :=
      propext and_comm
    simp only [should_save_telemetry, he, specAccept, MIN_DISTANCE_METERS,
      MIN_SPEED_KMH, MIN_TIME_INTERVAL_MOVING, MIN_TIME_INTERVAL_STATIONARY,
      MAX_TIME_WITHOUT_SAVE, hd, hcomm, not_le, Bool.not_true, Bool.false_eq_true,
      if_false, eq_self_iff_true, not_true, ite_false]
    split_ifs <;> rfl
  · simp only [should_save_telemetry, he, MAX_TIME_WITHOUT_SAVE,
      MIN_DISTANCE_METERS, hdist]
    by_cases hk : now - e.timestamp ≥ 3600
    · simp only [if_pos hk]
    · simp only [if_neg hk, if_pos (show (100 : ℚ) ≥ 50 by norm_num)]

/-- Witness for C2: first-record acceptance, the cascade equivalence at a
stationary fixture, and 100 m displacement dominance under a math library
whose asin makes the haversine formula yield exactly 100. -/
theorem adaptive_filter_rule_precedence_witness :
    (should_save_telemetry trigZero [] 0 2 cx5Td).1 = true ∧
    (should_save_telemetry trigZero [(1, ⟨cx5Td, 0⟩)] 1 1 cx5Td).1 =
      specAccept true
        (haversine_distance trigZero cx5Td.latitude cx5Td.longitude
          cx5Td.latitude cx5Td.longitude)
        (1 - 0) cx5Td.speed cx5Td.speed cx5Td.angle cx5Td.angle
        cx5Td.satellites cx5Td.satellites ∧
    (should_save_telemetry trigDist100 [(1, ⟨cx5Td, 0⟩)] 1 1 cx5Td).1 = true :=
  ⟨(adaptive_filter_rule_precedence trigZero [] 0 2 cx5Td).1 rfl,
   (adaptive_filter_rule_precedence trigZero [(1, ⟨cx5Td, 0⟩)] 1 1 cx5Td).2.1
     ⟨cx5Td, 0⟩ rfl (by decide) (by decide),
   (adaptive_filter_rule_precedence trigDist100 [(1, ⟨cx5Td, 0⟩)] 1 1 cx5Td).2.2
     ⟨cx5Td, 0⟩ rfl (by norm_num [haversine_distance, radiansQ, trigDist100])⟩

/-- C4.  The Filter State entry is mutated only by a durable accept: a
rejected point leaves the cache unchanged; a failed insert leaves it
unchanged; an accepted point with a successful insert replaces the entry
with the new point and the current wall-clock time. -/
theorem filter_state_only_updated_on_durable_accept (t : TrigOps)
    (insertOk : Bool) (cache : SaveCache) (now : ℚ) (vid : Nat)
    (td : TelemetryData) :
    ((should_save_telemetry t cache now vid td).1 = false →
      (store_telemetry t insertOk cache now vid td).2 = cache) ∧
    (insertOk = false →
      (store_telemetry t insertOk cache now vid td).2 = cache) ∧
    ((should_save_telemetry t cache now vid td).1 = true → insertOk = true →
      (store_telemetry t insertOk cache now vid td).2 =
        cacheInsert cache vid ⟨td, now⟩ ∧
      (store_telemetry t insertOk cache now vid td).1.1 = true) := by
  refine ⟨fun h => ?_, fun h => ?_, fun h hok => ?_⟩
  · simp [store_telemetry, h]
  · subst h
    simp only [store_telemetry, Bool.false_eq_true, if_false]
    split_ifs <;> rfl
  · subst hok
    simp [store_telemetry, h]

/-- Witness for C4: a stationary repeat point is rejected and leaves the
cache unchanged; a failed insert leaves it unchanged; the accepted first
point updates it. -/
theorem filter_state_only_updated_on_durable_accept_witness :
    (store_telemetry trigZero true [(1, ⟨cx5Td, 0⟩)] 1 1 cx5Td).2 =
      [(1, ⟨cx5Td, 0⟩)] ∧
    (store_telemetry trigZero false [] 5 1 cx5Td).2 = [] ∧
    (store_telemetry trigZero true [] 7 1 cx5Td).2 = cacheInsert [] 1 ⟨cx5Td, 7⟩ :=
  ⟨(filter_state_only_updated_on_durable_accept trigZero true
      [(1, ⟨cx5Td, 0⟩)] 1 1 cx5Td).1
      (by norm_num [should_save_telemetry, cacheLookup, haversine_distance,
        radiansQ, trigZero, absQ, MIN_DISTANCE_METERS, MIN_SPEED_KMH,
        MIN_TIME_INTERVAL_MOVING, MIN_TIME_INTERVAL_STATIONARY,
        MAX_TIME_WITHOUT_SAVE, TelemetryData.latitude, TelemetryData.longitude]),
   (filter_state_only_updated_on_durable_accept trigZero false [] 5 1 cx5Td).2.1 rfl,
   ((filter_state_only_updated_on_durable_accept trigZero true [] 7 1 cx5Td).2.2
      rfl rfl).1⟩

/-- C10.  Every elapsed-time comparison uses the wall clock: the decision
ignores the record's own decoded timestamp entirely; when the wall-clock
gap since the stored acceptance is under the 10 s moving interval, none of
the three time rules can fire and the decision collapses to the non-time
rules; and an accepted store writes the wall-clock now — not the record's
GPS timestamp — into the Filter State entry. -/
theorem filter_time_rules_use_wall_clock (t : TrigOps) (cache : SaveCache)
    (now : ℚ) (vid : Nat) (td : TelemetryData) :
    (∀ ms1 ms2 : Nat,
      should_save_telemetry t cache now vid { td with timestampMs := ms1 } =
        should_save_telemetry t cache now vid { td with timestampMs := ms2 }) ∧
    (∀ e : CacheEntry, cacheLookup cache vid = some e →
      now - e.timestamp < 10 → e.data.angle < 360 → td.angle < 360 →
      (should_save_telemetry t cache now vid td).1 =
        specAcceptNoTime true
          (haversine_distance t e.data.latitude e.data.longitude
            td.latitude td.longitude)
          td.speed e.data.speed td.angle e.data.angle
          td.satellites e.data.satellites) ∧
    (∀ insertOk : Bool,
      (store_telemetry t insertOk cache now vid td).1.1 = true →
      cacheLookup (store_telemetry t insertOk cache now vid td).2 vid =
        some ⟨td, now⟩) := by
  refine ⟨fun ms1 ms2 => rfl, fun e he hfast ha hb => ?_, fun insertOk h => ?_⟩
  · have hd := headingDelta_code_eq_spec td.angle e.data.angle hb ha
    have hcomm :
        (specHeadingDelta (td.angle : ℚ) (e.data.angle : ℚ) ≥ 30 ∧
          (td.speed : ℚ) ≥ 5) =
        ((td.speed : ℚ) ≥ 5 ∧
          specHeadingDelta (td.angle : ℚ) (e.data.angle : ℚ) ≥ 30) :=
      propext and_comm
    have h2 : ¬ (now - e.timestamp ≥ 3600) := by linarith
    have h4 : ¬ ((td.speed : ℚ) ≥ 5 ∧ now - e.timestamp ≥ 10) :=
      fun hc => absurd hc.2 (by linarith)
    have h5 : ¬ ((td.speed : ℚ) < 5 ∧ now - e.timestamp ≥ 300) :=
      fun hc => absurd hc.2 (by linarith)
    simp only [should_save_telemetry, he, specAcceptNoTime, MIN_DISTANCE_METERS,
      MIN_SPEED_KMH, MIN_TIME_INTERVAL_MOVING, MIN_TIME_INTERVAL_STATIONARY,
      MAX_TIME_WITHOUT_SAVE, hd, hcomm, not_le, Bool.not_true, Bool.false_eq_true,
      if_false, eq_self_iff_true, not_true, ite_false, if_neg h2, if_neg h4,
      if_neg h5]
    split_ifs <;> rfl
  · simp only [store_telemetry] at h ⊢
    split_ifs at h ⊢
    exact cacheLookup_insert cache vid ⟨td, now⟩

/-- C9 (amended).  No Signal Extractor exists: the backend frame step
passes every decoded record to storage with its raw I/O mapping unchanged,
and the stored row consists of nothing but the record's raw decoded
fields — no identifier is promoted to a named signal and no identifier
value affects success. -/
theorem io_identifiers_stored_raw (dir : List (Bytes × Nat)) (imei : Bytes)
    (packet : Bytes) (recs : List AvlRecord) (vid : Nat)
    (hparse : parse_codec8_packet packet = .ok (some recs))
    (hne : recs ≠ [])
    (hdir : dirLookup dir imei = some vid) :
    backendFrameStep dir imei true packet =
      .ok (natToBytesBE 4 recs.length,
        recs.map fun r =>
          { vehicleId := vid, timestampMs := r.timestampMs, latRaw := r.latRaw,
            lonRaw := r.lonRaw, altitude := r.altitude, angle := r.angle,
            satellites := r.satellites, speed := r.speed,
            ioElements := r.ioElements }) := by
  have hemp : recs.isEmpty = false := by
    cases recs with
    | nil => exact absurd rfl hne
    | cons a l => rfl
  unfold backendFrameStep backendStoreTelemetry
  simp only [hparse, hemp, Bool.false_eq_true, if_false, if_true, hdir]

/-- Witness for C9 at the identifier-42 fixture frame. -/
theorem io_identifiers_stored_raw_witness :
    backendFrameStep dirFix [0x31, 0x32] true (c9Frame 42) =
      .ok (natToBytesBE 4 [c9Rec 42].length,
        [c9Rec 42].map fun r =>
          { vehicleId := 5, timestampMs := r.timestampMs, latRaw := r.latRaw,
            lonRaw := r.lonRaw, altitude := r.altitude, angle := r.angle,
            satellites := r.satellites, speed := r.speed,
            ioElements := r.ioElements }) :=
  io_identifiers_stored_raw dirFix [0x31, 0x32] (c9Frame 42) [c9Rec 42] 5
    (by decide) (by decide) (by decide)

set_option maxRecDepth 100000 in
set_option maxHeartbeats 2000000 in
/-- C9 counterexample.  For every possible 1-byte I/O identifier i, the
record decoded from the fixture frame carrying the single element
(i, raw 100) reaches the stored row with the value 100 unchanged and
attached to identifier i, and the row consists of nothing but the raw
decoded fields.  Whichever identifiers the claimed table maps to engine
RPM (raw / 4 = 25), coolant temperature (raw - 40 = 60) or fuel level
(raw * 100 / 255 = 39), no converted value and no named-signal component
is ever produced, so the claimed promotion does not exist in the code. -/
theorem no_identifier_is_promoted_or_converted :
    ((List.range 256).all fun i =>
      backendFrameStep dirFix [0x31, 0x32] true (c9Frame i) =
        PResult.ok ([0, 0, 0, 1], [c9Row i])) = true := by decide

/-- Witness for C10 at the stationary fixture. -/
theorem filter_time_rules_use_wall_clock_witness :
    should_save_telemetry trigZero [(1, ⟨cx5Td, 0⟩)] 1 1
        { cx5Td with timestampMs := 5 } =
      should_save_telemetry trigZero [(1, ⟨cx5Td, 0⟩)] 1 1
        { cx5Td with timestampMs := 999 } ∧
    (should_save_telemetry trigZero [(1, ⟨cx5Td, 0⟩)] 1 1 cx5Td).1 =
      specAcceptNoTime true
        (haversine_distance trigZero cx5Td.latitude cx5Td.longitude
          cx5Td.latitude cx5Td.longitude)
        cx5Td.speed cx5Td.speed cx5Td.angle cx5Td.angle
        cx5Td.satellites cx5Td.satellites ∧
    cacheLookup (store_telemetry trigZero true [] 7 1 cx5Td).2 1 =
      some ⟨cx5Td, 7⟩ :=
  ⟨(filter_time_rules_use_wall_clock trigZero [(1, ⟨cx5Td, 0⟩)] 1 1 cx5Td).1 5 999,
   (filter_time_rules_use_wall_clock trigZero [(1, ⟨cx5Td, 0⟩)] 1 1 cx5Td).2.1
     ⟨cx5Td, 0⟩ rfl (by norm_num) (by decide) (by decide),
   (filter_time_rules_use_wall_clock trigZero [] 7 1 cx5Td).2.2 true rfl⟩

end Fleet
